import Mathlib

/-!
Verification development for the tmx-cli weekplan tool (`tmx_cli.py`).

The program's core is embedded shallowly:
* Python strings are lists of code points (`Str := List Nat`);
* `datetime.date` values are proleptic-Gregorian ordinals (`Nat`), as in
  CPython's `date.toordinal`; date arithmetic that CPython would abort with
  `OverflowError` is modelled by `Option`;
* the network is an oracle passed in as a function argument;
* functions that can raise uncaught exceptions return an explicit crash value.

Definitions follow the layout of the source file: cookie management, the
login flow, the regex-based weekplan HTML extraction, and the sync engine.
-/

namespace Tmx

/-- Python strings, as their sequences of code points. -/
abbrev Str := List Nat

/-- Code points of a Lean string literal, used to transcribe the literals of the source. -/
def str (s : String) : Str := s.data.map Char.toNat

/-- Python's `<` on strings: lexicographic comparison of code points. -/
def strLtB : Str → Str → Bool
  | _, [] => false
  | [], _ :: _ => true
  | a :: as, b :: bs => if a < b then true else if a = b then strLtB as bs else false

/-- Python's `<=` on strings: lexicographic comparison of code points. -/
def strLeB : Str → Str → Bool
  | [], _ => true
  | _ :: _, [] => false
  | a :: as, b :: bs => if a < b then true else if a = b then strLeB as bs else false

/-- `headMatches p s` holds when `p` is an initial segment of `s`. -/
def headMatches : Str → Str → Bool
  | [], _ => true
  | _ :: _, [] => false
  | p :: ps, c :: cs => p == c && headMatches ps cs

/-- Split `s` at the first occurrence of `pat`: the part before it and the part after it.
`none` when `pat` does not occur.  This is the scanning step shared by Python's
`in` operator and the non-greedy `(.*?)pat` idiom of the source's regexes. -/
def splitAtSub (pat : Str) : Str → Option (Str × Str)
  | [] => if headMatches pat [] then some ([], []) else none
  | c :: rest =>
    if headMatches pat (c :: rest) then some ([], (c :: rest).drop pat.length)
    else
      match splitAtSub pat rest with
      | none => none
      | some (pre, post) => some (c :: pre, post)

/-- Python's `pat in s` substring test. -/
def hasSub (pat s : Str) : Bool := (splitAtSub pat s).isSome

/-- ASCII whitespace, the subset of Python's `\s` and `str.strip` classes exercised here. -/
def isWsC (c : Nat) : Bool := c == 32 || c == 9 || c == 10 || c == 13 || c == 11 || c == 12

/-- Python's `str.strip()` (whitespace from both ends). -/
def stripWs (s : Str) : Str := ((s.dropWhile isWsC).reverse.dropWhile isWsC).reverse

/-- ASCII lowercasing of one code point. -/
def lowerC (c : Nat) : Nat := if 65 ≤ c ∧ c ≤ 90 then c + 32 else c

/-- Python's `str.lower()` (ASCII fragment). -/
def lowerStr (s : Str) : Str := s.map lowerC

/-- Case-insensitive initial-segment test, for the one `re.I` pattern of the source. -/
def headMatchesCI : Str → Str → Bool
  | [], _ => true
  | _ :: _, [] => false
  | p :: ps, c :: cs => lowerC p == lowerC c && headMatchesCI ps cs

/-- Decimal digit code points of a natural number. -/
def natDigitsAux : Nat → Nat → Str
  | 0, _ => []
  | fuel + 1, n => if n < 10 then [48 + n] else natDigitsAux fuel (n / 10) ++ [48 + n % 10]

/-- Python's `str(n)` for a non-negative integer. -/
def natDigits (n : Nat) : Str := natDigitsAux (n + 1) n

/-- Python's `str(i)` for an integer. -/
def intDigits (i : Int) : Str :=
  if i < 0 then 45 :: natDigits i.natAbs else natDigits i.natAbs

/-! ### Dates

CPython's `datetime.date` restricted to what the source uses: `fromisoformat`,
`isoformat`, comparison, and `+ timedelta(days/weeks)`.  A date is its
proleptic-Gregorian ordinal (`date.toordinal`, with 0001-01-01 ↦ 1). -/

/-- Gregorian leap-year test (`datetime._is_leap`). -/
def isLeapYear (y : Nat) : Bool := y % 4 == 0 && (y % 100 != 0 || y % 400 == 0)

/-- Days in a month (`datetime._days_in_month`). -/
def monthDays (y m : Nat) : Nat :=
  if m = 2 then (if isLeapYear y then 29 else 28)
  else if m = 4 ∨ m = 6 ∨ m = 9 ∨ m = 11 then 30
  else 31

/-- Days in the year before month `m` (`datetime._days_before_month`). -/
def daysBeforeMonth (y m : Nat) : Nat :=
  (match m with
   | 1 => 0 | 2 => 31 | 3 => 59 | 4 => 90 | 5 => 120 | 6 => 151
   | 7 => 181 | 8 => 212 | 9 => 243 | 10 => 273 | 11 => 304 | _ => 334)
  + (if 2 < m ∧ isLeapYear y then 1 else 0)

/-- Days before January 1 of year `y` (`datetime._days_before_year`). -/
def daysBeforeYear (y : Nat) : Nat :=
  365 * (y - 1) + (y - 1) / 4 - (y - 1) / 100 + (y - 1) / 400

/-- `date(y, m, d).toordinal()`. -/
def ymdToOrd (y m d : Nat) : Nat := daysBeforeYear y + daysBeforeMonth y m + d

/-- Ordinal of `date.max = 9999-12-31`. -/
def maxOrd : Nat := ymdToOrd 9999 12 31

/-- `date.fromordinal`: year, month, day of an ordinal (civil-from-days algorithm). -/
def ordToYmd (n : Nat) : Nat × Nat × Nat :=
  let z := n + 305
  let era := z / 146097
  let doe := z % 146097
  let yoe := (doe - doe / 1460 + doe / 36524 - doe / 146096) / 365
  let y := yoe + era * 400
  let doy := doe - (365 * yoe + yoe / 4 - yoe / 100)
  let mp := (5 * doy + 2) / 153
  let d := doy - (153 * mp + 2) / 5 + 1
  let m := if mp < 10 then mp + 3 else mp - 9
  if m ≤ 2 then (y + 1, m, d) else (y, m, d)

/-- Two-digit zero-padded decimal rendering. -/
def pad2 (n : Nat) : Str := [48 + n / 10 % 10, 48 + n % 10]

/-- Four-digit zero-padded decimal rendering. -/
def pad4 (n : Nat) : Str := [48 + n / 1000 % 10, 48 + n / 100 % 10, 48 + n / 10 % 10, 48 + n % 10]

/-- `date.isoformat()`: the canonical `YYYY-MM-DD` rendering. -/
def isoformat (o : Nat) : Str :=
  let ymd := ordToYmd o
  pad4 ymd.1 ++ [45] ++ pad2 ymd.2.1 ++ [45] ++ pad2 ymd.2.2

/-- Digit test on a code point. -/
def isDigitC (c : Nat) : Bool := 48 ≤ c && c ≤ 57

/-- `date.fromisoformat`: strict `YYYY-MM-DD` parsing (the format produced by
`date.isoformat`); `none` models the `ValueError` CPython raises otherwise. -/
def parseIsoDate (s : Str) : Option Nat :=
  match s with
  | [a, b, c, d, h1, e, f, h2, g, i] =>
    if h1 = 45 ∧ h2 = 45 ∧ isDigitC a ∧ isDigitC b ∧ isDigitC c ∧ isDigitC d ∧
        isDigitC e ∧ isDigitC f ∧ isDigitC g ∧ isDigitC i then
      let y := (a - 48) * 1000 + (b - 48) * 100 + (c - 48) * 10 + (d - 48)
      let m := (e - 48) * 10 + (f - 48)
      let dd := (g - 48) * 10 + (i - 48)
      if 1 ≤ y ∧ 1 ≤ m ∧ m ≤ 12 ∧ 1 ≤ dd ∧ dd ≤ monthDays y m then
        some (ymdToOrd y m dd)
      else none
    else none
  | _ => none

/-- `date + timedelta(days = n)`, with `none` for the `OverflowError` cases
(results outside `[date.min, date.max]`, or a `timedelta` too large to build). -/
def addDaysChecked (o : Nat) (n : Int) : Option Nat :=
  if 1 ≤ (o : Int) + n ∧ (o : Int) + n ≤ (maxOrd : Int) then some ((o : Int) + n).toNat
  else none

/-! ### Markup extraction (`parse_weekplan_html`)

The source extracts day and recipe records with `re.findall`/`re.search` on a
handful of fixed patterns.  Each pattern is transcribed as a direct scanner
over the code-point list; scanning proceeds left to right taking the first
candidate occurrence, which agrees with the regex engine on the markup shapes
involved (the engine's backtracking within one candidate is not replayed). -/

/-- One extracted recipe tile (`{id, title, url, image}` in the source). -/
structure RecipeRecord where
  id : Str
  title : Str
  url : Str
  image : Option Str
  deriving DecidableEq, Repr

/-- One extracted day (`{date, dayName, dayNumber, isToday, recipes}` in the source). -/
structure DayRecord where
  date : Str
  dayName : Str
  dayNumber : Str
  isToday : Bool
  recipes : List RecipeRecord
  deriving DecidableEq, Repr

/-- Scan for `attr="value"` before the tag's closing `>`: the `[^>]*attr="([^"]+)"`
part of the day-block pattern.  Returns the captured value and the rest of the
input after the closing quote. -/
def scanAttrVal (pat : Str) : Str → Option (Str × Str)
  | [] => none
  | c :: rest =>
    if headMatches pat (c :: rest) then
      let after := (c :: rest).drop pat.length
      let v := after.takeWhile (fun x => x ≠ 34)
      match after.drop v.length with
      | 34 :: rest3 => if v = [] then none else some (v, rest3)
      | _ => none
    else if c = 62 then none
    else scanAttrVal pat rest

/-- Consume `[^>]*>`: drop up to and including the first `>`. -/
def skipToGt : Str → Option Str
  | [] => none
  | c :: rest => if c = 62 then some rest else skipToGt rest

/-- All `(date, block)` pairs of
`re.findall(r'<plan-week-day[^>]*date="([^"]+)"[^>]*>(.*?)</plan-week-day>', html, re.DOTALL)`. -/
def dayBlocksAux : Nat → Str → List (Str × Str)
  | 0, _ => []
  | fuel + 1, s =>
    match splitAtSub (str ("<plan-week-day")) s with
    | none => []
    | some (_, afterTag) =>
      match scanAttrVal (str ("date=\"")) afterTag with
      | none => dayBlocksAux fuel afterTag
      | some (date, rest1) =>
        match skipToGt rest1 with
        | none => dayBlocksAux fuel afterTag
        | some content =>
          match splitAtSub (str ("</plan-week-day>")) content with
          | none => dayBlocksAux fuel afterTag
          | some (block, rest2) => (date, block) :: dayBlocksAux fuel rest2

/-- Day blocks of one fetched page. -/
def dayBlocks (s : Str) : List (Str × Str) := dayBlocksAux (s.length + 1) s

/-- All `(recipe_id, block)` pairs of
`re.findall(r'<core-tile\s+data-recipe-id="([^"]+)"[^>]*>(.*?)</core-tile>', block, re.DOTALL)`. -/
def recipeBlocksAux : Nat → Str → List (Str × Str)
  | 0, _ => []
  | fuel + 1, s =>
    match splitAtSub (str ("<core-tile")) s with
    | none => []
    | some (_, afterTag) =>
      let ws := afterTag.takeWhile isWsC
      let rest0 := afterTag.drop ws.length
      if ws = [] then recipeBlocksAux fuel afterTag
      else if headMatches (str ("data-recipe-id=\"")) rest0 then
        let after := rest0.drop (str ("data-recipe-id=\"")).length
        let v := after.takeWhile (fun x => x ≠ 34)
        match after.drop v.length with
        | 34 :: rest1 =>
          if v = [] then recipeBlocksAux fuel afterTag
          else
            match skipToGt rest1 with
            | none => recipeBlocksAux fuel afterTag
            | some content =>
              match splitAtSub (str ("</core-tile>")) content with
              | none => recipeBlocksAux fuel afterTag
              | some (block, rest2) => (v, block) :: recipeBlocksAux fuel rest2
        | _ => recipeBlocksAux fuel afterTag
      else recipeBlocksAux fuel afterTag

/-- Recipe tiles of one day block. -/
def recipeBlocks (s : Str) : List (Str × Str) := recipeBlocksAux (s.length + 1) s

/-- `re.search(r'class="..."?>([^<]+)<', block)`-style text capture: find the
literal `pat`, then capture the non-empty run of non-`<` characters that must
be followed by a further character (necessarily `<`). -/
def scanClassText (pat : Str) : Str → Option Str
  | [] => none
  | c :: rest =>
    if headMatches pat (c :: rest) then
      let after := (c :: rest).drop pat.length
      let t := after.takeWhile (fun x => x ≠ 60)
      if t ≠ [] ∧ t.length < after.length then some t
      else scanClassText pat rest
    else scanClassText pat rest

/-- The `[^>]+src="(https://assets\.tmecosys[^"]+)"` part of the image pattern,
scanned after a `<img`; `gap` records whether at least one non-`>` character
has been consumed. -/
def imgInner : Str → Bool → Option Str
  | [], _ => none
  | c :: rest, gap =>
    if gap ∧ headMatches (str ("src=\"https://assets.tmecosys")) (c :: rest) then
      let after := (c :: rest).drop (str ("src=\"https://assets.tmecosys")).length
      let v := after.takeWhile (fun x => x ≠ 34)
      match after.drop v.length with
      | 34 :: _ => if v = [] then imgInner rest true else some (str ("https://assets.tmecosys") ++ v)
      | _ => imgInner rest true
    else if c = 62 then none
    else imgInner rest true

/-- `re.search(r'<img[^>]+src="(https://assets\.tmecosys[^"]+)"', block)`. -/
def scanImage : Str → Option Str
  | [] => none
  | c :: rest =>
    if headMatches (str ("<img")) (c :: rest) then
      match imgInner ((c :: rest).drop 4) false with
      | some v => some v
      | none => scanImage rest
    else scanImage rest

/-- Build one recipe record from a tile; `none` when the title pattern is
missing or strips to the empty string (the `if title:` guard of the source). -/
def mkRecipe (idv block : Str) : Option RecipeRecord :=
  match scanClassText (str ("class=\"core-tile__description-text\">")) block with
  | none => none
  | some t =>
    let title := stripWs t
    if title = [] then none
    else
      some { id := idv
           , title := title
           , url := str ("https://cookidoo.de/recipes/recipe/de-DE/") ++ idv
           , image := scanImage block }

/-- Build one day record from a day block. -/
def mkDay (date block : Str) : DayRecord :=
  { date := date
  , dayName :=
      match scanClassText (str ("class=\"my-week__day-short\">")) block with
      | some t => stripWs t
      | none => []
  , dayNumber :=
      match scanClassText (str ("class=\"my-week__day-number\">")) block with
      | some t => stripWs t
      | none => []
  , isToday := hasSub (str ("my-week__today")) block || hasSub (str (">Heute<")) block
  , recipes := (recipeBlocks block).filterMap (fun p => mkRecipe p.1 p.2) }

/-- `parse_weekplan_html`: the regex-based two-level extraction of the source. -/
def parse_weekplan_html (html : Str) : List DayRecord :=
  (dayBlocks html).map (fun p => mkDay p.1 p.2)

/-! ### Cookie store and the sync engine

The persisted cookie store, as `load_cookies` returns it, is a name→value
dictionary; the network behind `fetch` is an oracle mapping the requested
week-start date string to the `(status, body)` pair `fetch` would return. -/

/-- `is_authenticated`: one of the two designated auth cookie names is present. -/
def is_authenticated (cookies : List (Str × Str)) : Bool :=
  cookies.any (fun p => p.1 = str ("v-authenticated")) ||
    cookies.any (fun p => p.1 = str ("_oauth2_proxy"))

/-- `fetch_week`: fetch one week's page and extract its days.  Non-200 statuses
and bodies that look like a login redirect yield the empty list. -/
def fetch_week (env : Str → Int × Str) (dateStr : Str) : List DayRecord :=
  let r := env dateStr
  if r.1 ≠ 200 then []
  else if hasSub (str ("oauth2/start")) r.2 || hasSub (str ("login")) ((lowerStr r.2).take 500) then []
  else parse_weekplan_html r.2

/-- The snapshot `sync_weekplan` returns on success. -/
structure Snapshot where
  timestamp : Str
  sinceDate : Str
  days : List DayRecord
  deriving DecidableEq, Repr

/-- Result of one sync: an uncaught exception, an error dictionary, or a snapshot. -/
inductive SyncResult
  | crash
  | error (msg : Str)
  | ok (snap : Snapshot)
  deriving DecidableEq, Repr

/-- A sync run: its result plus the number of week fetches it performed. -/
structure SyncRun where
  result : SyncResult
  fetchCount : Nat
  deriving DecidableEq, Repr

/-- Outcome of the week-fetch loop. -/
inductive LoopOut
  | crashed (fetchCount : Nat)
  | sessionExpired (fetchCount : Nat)
  | done (days : List DayRecord) (fetchCount : Nat)
  deriving DecidableEq, Repr

/-- The per-day merge body of the loop: skip an empty or already-seen date,
parse the date (`none` models the uncaught `ValueError`), and append the day
with its recomputed `isToday` flag when it falls inside `[start, end)`. -/
def mergeDays (startOrd endOrd : Nat) (todayStr : Str) :
    List DayRecord → List DayRecord → List Str → Option (List DayRecord × List Str)
  | [], acc, seen => some (acc, seen)
  | day :: rest, acc, seen =>
    if day.date ≠ [] ∧ day.date ∉ seen then
      match parseIsoDate day.date with
      | none => none
      | some o =>
        if startOrd ≤ o ∧ o < endOrd then
          mergeDays startOrd endOrd todayStr rest
            (acc ++ [{ day with isToday := day.date = todayStr }]) (day.date :: seen)
        else mergeDays startOrd endOrd todayStr rest acc seen
    else mergeDays startOrd endOrd todayStr rest acc seen

/-- The `for week_offset in range(weeks_needed)` loop of `sync_weekplan`:
`k` is the current offset and `fuel` the remaining iterations. -/
def syncLoop (env : Str → Int × Str) (todayStr : Str) (startOrd endOrd : Nat) :
    Nat → Nat → List DayRecord → List Str → Nat → LoopOut
  | _, 0, acc, _, fc => .done acc fc
  | k, fuel + 1, acc, seen, fc =>
    match addDaysChecked startOrd (7 * k) with
    | none => .crashed fc
    | some weekStart =>
      if endOrd < weekStart then .done acc fc
      else
        let days := fetch_week env (isoformat weekStart)
        if days = [] then
          if k = 0 then .sessionExpired (fc + 1) else .done acc (fc + 1)
        else
          match mergeDays startOrd endOrd todayStr days acc seen with
          | none => .crashed (fc + 1)
          | some (acc2, seen2) => syncLoop env todayStr startOrd endOrd (k + 1) fuel acc2 seen2 (fc + 1)

/-- The ordering the final `all_days.sort(key=lambda d: d.get("date", ""))` uses. -/
def dayDateLe (a b : DayRecord) : Prop := strLeB a.date b.date = true

instance : DecidableRel dayDateLe := fun a b => by unfold dayDateLe; infer_instance

/-- The final sort of the accumulated days.  The accumulated dates are pairwise
distinct in every reachable call, so any correct sort computes the list the
source's stable sort produces. -/
def sortDays (days : List DayRecord) : List DayRecord := List.insertionSort dayDateLe days

/-- The start date `sync_weekplan` works from: the parsed `since` argument, or
today when parsing raises (`except ValueError`). -/
def effectiveStart (since : Str) (today : Nat) : Nat := (parseIsoDate since).getD today

/-- `sync_weekplan since days_count`, with the current date `today` (an ordinal)
and the generation timestamp `now` supplied as inputs. -/
def sync_weekplan (env : Str → Int × Str) (cookies : List (Str × Str)) (since : Str)
    (days_count : Int) (today : Nat) (now : Str) : SyncRun :=
  if ¬ is_authenticated cookies then
    ⟨.error (str ("Keine gültigen Cookies. Bitte zuerst einloggen.")), 0⟩
  else
    match addDaysChecked (effectiveStart since today) days_count with
    | none => ⟨.crash, 0⟩
    | some endOrd =>
      match syncLoop env (isoformat today) (effectiveStart since today) endOrd 0
          (days_count.fdiv 7 + 2).toNat [] [] 0 with
      | .crashed fc => ⟨.crash, fc⟩
      | .sessionExpired fc =>
        ⟨.error (str ("Session abgelaufen oder keine Daten. Bitte neu einloggen.")), fc⟩
      | .done acc fc => ⟨.ok ⟨now, since, sortDays acc⟩, fc⟩

/-! ### Login flow (`do_login`)

Each `opener.open` call is abstracted by an oracle indexed by the call number
and the requested URL; a response carries the final body and URL together with
the cookies the opener's `CookieJar` collects along the way (redirects that the
opener follows automatically are inside one oracle step).  `HTTPError` and
other exceptions are explicit response constructors. -/

/-- One cookie as held in the `CookieJar`. -/
structure NetCookie where
  name : Str
  value : Str
  domain : Str
  path : Str
  expires : Option Int
  secure : Bool
  httpOnly : Bool
  deriving DecidableEq, Repr

/-- One record of the persisted Puppeteer-format cookie file. -/
structure SavedCookie where
  name : Str
  value : Str
  domain : Str
  path : Str
  expires : Int
  httpOnly : Bool
  secure : Bool
  session : Bool
  deriving DecidableEq, Repr

/-- `save_cookies_from_jar`: serialize the full jar (note `cookie.expires or -1`
maps both `None` and `0` to `-1`, and `session` means no expiry). -/
def save_cookies_from_jar (jar : List NetCookie) : List SavedCookie :=
  jar.map fun c =>
    { name := c.name
    , value := c.value
    , domain := c.domain
    , path := c.path
    , expires := match c.expires with | none => -1 | some e => if e = 0 then -1 else e
    , httpOnly := c.httpOnly
    , secure := c.secure
    , session := c.expires.isNone }

/-- Response of one `opener.open` call. -/
inductive NetResp
  | ok (body finalUrl : Str) (cookies : List NetCookie)
  | httpError (code : Int) (location : Str)
  | exn (msg : Str)
  deriving DecidableEq, Repr

/-- How the redirect-following loop (or the whole login) came to an end. -/
inductive EndReason
  | authMarker
  | budget
  | noRedirect
  | fetchFail
  | notReached
  deriving DecidableEq, Repr

/-- Result of `do_login`, instrumented with the final jar, the final response
body, the hop count of the redirect loop, and how the loop ended.  `saved`
records the single possible write to the persisted cookie store. -/
structure LoginRun where
  success : Bool
  message : Str
  saved : Option (List SavedCookie)
  jar : List NetCookie
  lastBody : Str
  hops : Nat
  ending : EndReason
  deriving DecidableEq, Repr

/-- A failing login outcome: no write to the cookie store. -/
def mkFailRun (msg : Str) (jar : List NetCookie) (body : Str) (hops : Nat)
    (ending : EndReason) : LoginRun :=
  { success := false, message := msg, saved := none, jar := jar
  , lastBody := body, hops := hops, ending := ending }

/-- `re.search(r'name="requestId"\s+value="([^"]+)"', login_html)`. -/
def scanRequestIdBody : Str → Option Str
  | [] => none
  | c :: rest =>
    if headMatches (str ("name=\"requestId\"")) (c :: rest) then
      let after := (c :: rest).drop (str ("name=\"requestId\"")).length
      let ws := after.takeWhile isWsC
      let after2 := after.drop ws.length
      if ws ≠ [] ∧ headMatches (str ("value=\"")) after2 then
        let after3 := after2.drop (str ("value=\"")).length
        let v := after3.takeWhile (fun x => x ≠ 34)
        match after3.drop v.length with
        | 34 :: _ => if v = [] then scanRequestIdBody rest else some v
        | _ => scanRequestIdBody rest
      else scanRequestIdBody rest
    else scanRequestIdBody rest

/-- `re.search(r'requestId=([^&"]+)', login_url)`. -/
def scanRequestIdUrl : Str → Option Str
  | [] => none
  | c :: rest =>
    if headMatches (str ("requestId=")) (c :: rest) then
      let v := ((c :: rest).drop (str ("requestId=")).length).takeWhile
        (fun x => x ≠ 38 ∧ x ≠ 34)
      if v = [] then scanRequestIdUrl rest else some v
    else scanRequestIdUrl rest

/-- `re.search(r'location\.href\s*=\s*["\']([^"\']+)["\']', result_html)`. -/
def scanLocHref : Str → Option Str
  | [] => none
  | c :: rest =>
    if headMatches (str ("location.href")) (c :: rest) then
      let after := (c :: rest).drop (str ("location.href")).length
      let after2 := after.drop (after.takeWhile isWsC).length
      match after2 with
      | 61 :: after3 =>
        let after4 := after3.drop (after3.takeWhile isWsC).length
        match after4 with
        | q :: after5 =>
          if q = 34 ∨ q = 39 then
            let v := after5.takeWhile (fun x => x ≠ 34 ∧ x ≠ 39)
            if v ≠ [] ∧ v.length < after5.length then some v else scanLocHref rest
          else scanLocHref rest
        | [] => scanLocHref rest
      | _ => scanLocHref rest
    else scanLocHref rest

/-- The `url=([^"\'>\s]+)` tail of the meta-refresh pattern, inside the tag. -/
def metaUrlPart : Str → Bool → Option Str
  | [], _ => none
  | c :: rest, gap =>
    if gap ∧ headMatchesCI (str ("url=")) (c :: rest) then
      let v := ((c :: rest).drop 4).takeWhile
        (fun x => x ≠ 34 ∧ x ≠ 39 ∧ x ≠ 62 ∧ ¬ isWsC x)
      if v = [] then metaUrlPart rest true else some v
    else if c = 62 then none
    else metaUrlPart rest true

/-- The `http-equiv="refresh"[^>]+url=…` part of the meta-refresh pattern. -/
def metaRefreshPart : Str → Bool → Option Str
  | [], _ => none
  | c :: rest, gap =>
    if gap ∧ headMatchesCI (str ("http-equiv=\"refresh\"")) (c :: rest) then
      match metaUrlPart ((c :: rest).drop (str ("http-equiv=\"refresh\"")).length) false with
      | some v => some v
      | none => metaRefreshPart rest true
    else if c = 62 then none
    else metaRefreshPart rest true

/-- `re.search(r'<meta[^>]+http-equiv="refresh"[^>]+url=([^"\'>\s]+)', result_html, re.I)`. -/
def scanMetaRefresh : Str → Option Str
  | [] => none
  | c :: rest =>
    if headMatchesCI (str ("<meta")) (c :: rest) then
      match metaRefreshPart ((c :: rest).drop 5) false with
      | some v => some v
      | none => scanMetaRefresh rest
    else scanMetaRefresh rest

/-- The redirect instruction found in a body: the script location assignment,
or failing that the meta refresh. -/
def findRedirect (body : Str) : Option Str :=
  match scanLocHref body with
  | some v => some v
  | none => scanMetaRefresh body

/-- Modelled from the spec: resolution of a relative redirect target against the
current URL ("resolving relative URLs against the current one").  The source
delegates to the stdlib `urllib.parse.urljoin`, which is not part of this
repository; this model covers absolute, root-relative and relative-path
targets. -/
def urljoinModel (base rel : Str) : Str :=
  if hasSub (str ("://")) rel then rel
  else
    match splitAtSub (str ("://")) base with
    | none => rel
    | some (scheme, hostPath) =>
      let host := hostPath.takeWhile (fun x => x ≠ 47)
      if headMatches (str ("/")) rel then scheme ++ str ("://") ++ host ++ rel
      else
        let path := hostPath.drop host.length
        let dir := (path.reverse.dropWhile (fun x => x ≠ 47)).reverse
        scheme ++ str ("://") ++ host ++ dir ++ rel

/-- State threaded through the redirect loop: current body, current URL, the
jar, and the index of the next oracle call. -/
structure FollowState where
  body : Str
  url : Str
  jar : List NetCookie
  idx : Nat
  deriving DecidableEq, Repr

/-- Result of the redirect loop, with the completed hop count and end reason. -/
structure FollowOut where
  body : Str
  url : Str
  jar : List NetCookie
  idx : Nat
  hops : Nat
  ending : EndReason
  deriving DecidableEq, Repr

/-- The head of each loop iteration: when the current URL is back at Cookidoo
and not the login-start endpoint, re-fetch it (all errors swallowed by the
bare `except: pass`); the flag reports the authenticated marker. -/
def cookidooRecheck (env : Nat → Str → NetResp) (st : FollowState) : FollowState × Bool :=
  if hasSub (str ("cookidoo.de")) st.url ∧ ¬ hasSub (str ("oauth2/start")) st.url then
    match env st.idx st.url with
    | .ok body url cookies =>
      (({ body := body, url := url, jar := st.jar ++ cookies, idx := st.idx + 1 } : FollowState),
        hasSub (str ("is-authenticated")) body || hasSub (str ("my-week")) url)
    | _ => ({ st with idx := st.idx + 1 }, false)
  else (st, false)

/-- The step-3 `while redirect_count < max_redirects` loop of `do_login`:
optionally re-fetch the current Cookidoo URL (errors swallowed), break on the
authenticated marker, else follow the redirect instruction found in the body;
a redirect-status error updates only the URL, any other fetch failure breaks. -/
def followRedirects (env : Nat → Str → NetResp) : Nat → FollowState → Nat → FollowOut
  | 0, st, hops => ⟨st.body, st.url, st.jar, st.idx, hops, .budget⟩
  | fuel + 1, st, hops =>
    match cookidooRecheck env st with
    | (st1, auth) =>
      if auth then ⟨st1.body, st1.url, st1.jar, st1.idx, hops, .authMarker⟩
      else
        match findRedirect st1.body with
        | none => ⟨st1.body, st1.url, st1.jar, st1.idx, hops, .noRedirect⟩
        | some target =>
          match env st1.idx (if headMatches (str ("http")) target then target
              else urljoinModel st1.url target) with
          | .ok body url cookies =>
            followRedirects env fuel ⟨body, url, st1.jar ++ cookies, st1.idx + 1⟩ (hops + 1)
          | .httpError code loc =>
            if code = 302 ∨ code = 303 ∨ code = 307 then
              followRedirects env fuel ⟨st1.body, loc, st1.jar, st1.idx + 1⟩ (hops + 1)
            else ⟨st1.body, st1.url, st1.jar, st1.idx + 1, hops, .fetchFail⟩
          | .exn _ => ⟨st1.body, st1.url, st1.jar, st1.idx + 1, hops, .fetchFail⟩

/-- Step 4's check: an auth cookie name among the jar's Cookidoo-domain cookies. -/
def authCookiesPresent (jar : List NetCookie) : Bool :=
  jar.any fun c => hasSub (str ("cookidoo")) c.domain &&
    (c.name == str ("v-authenticated") || c.name == str ("_oauth2_proxy"))

/-- The wrong-password test of step 4: either needle found in the lowercased
last response body (note the first needle is tested with its capital letter
against the lowercased text, exactly as in the source). -/
def wrongPwHit (body : Str) : Bool :=
  hasSub (str ("falsches Passwort")) (lowerStr body) ||
    hasSub (str ("incorrect")) (lowerStr body)

/-- The account-not-found test of step 4, against the lowercased body. -/
def notFoundHit (body : Str) : Bool :=
  hasSub (str ("nicht gefunden")) (lowerStr body) ||
    hasSub (str ("not found")) (lowerStr body)

/-- The failure message chosen from the last response body when no auth cookies
were obtained (lines 247–252 of the source). -/
def failureMessage (body : Str) : Str :=
  if wrongPwHit body then str ("Falsches Passwort")
  else if notFoundHit body then str ("E-Mail-Adresse nicht gefunden")
  else str ("Login fehlgeschlagen - keine Auth-Cookies erhalten")

/-- Steps 3–4 of `do_login`: run the redirect loop, then either persist the jar
and succeed, or pick a failure message from the last body. -/
def loginFinish (env : Nat → Str → NetResp) (jar : List NetCookie)
    (body url : Str) : LoginRun :=
  let out := followRedirects env 10 ⟨body, url, jar, 2⟩ 0
  if authCookiesPresent out.jar then
    { success := true
    , message := str ("Login erfolgreich! ") ++ natDigits out.jar.length ++
        str (" Cookies gespeichert.")
    , saved := some (save_cookies_from_jar out.jar)
    , jar := out.jar
    , lastBody := out.body
    , hops := out.hops
    , ending := out.ending }
  else mkFailRun (failureMessage out.body) out.jar out.body out.hops out.ending

/-- The login-initiation URL of step 1. -/
def oauthStartUrl : Str :=
  str ("https://cookidoo.de/oauth2/start?market=de&ui_locales=de-DE&rd=/planning/de-DE/my-week")

/-- The fixed credential-submission URL of step 2. -/
def loginPostUrl : Str :=
  str ("https://ciam.prod.cookidoo.vorwerk-digital.com/login-srv/login")

/-- `do_login email password`: steps 1 (OAuth start and token extraction) and
2 (credential POST), then `loginFinish`.  The credentials flow only into the
POST the oracle abstracts. -/
def do_login (env : Nat → Str → NetResp) (_email _password : Str) : LoginRun :=
  match env 0 oauthStartUrl with
  | .httpError code _ =>
    mkFailRun (str ("OAuth-Start fehlgeschlagen: HTTP ") ++ intDigits code) [] [] 0 .notReached
  | .exn m => mkFailRun (str ("OAuth-Start fehlgeschlagen: ") ++ m) [] [] 0 .notReached
  | .ok loginHtml loginUrl cookies0 =>
    let rid :=
      match scanRequestIdBody loginHtml with
      | some v => some v
      | none => scanRequestIdUrl loginUrl
    match rid with
    | none => mkFailRun (str ("Konnte requestId nicht finden")) cookies0 loginHtml 0 .notReached
    | some _ =>
      match env 1 loginPostUrl with
      | .exn m =>
        mkFailRun (str ("Login fehlgeschlagen: ") ++ m) cookies0 loginHtml 0 .notReached
      | .httpError code loc =>
        if code = 302 ∨ code = 303 ∨ code = 307 then loginFinish env cookies0 [] loc
        else mkFailRun (str ("Login fehlgeschlagen: HTTP ") ++ intDigits code) cookies0
          loginHtml 0 .notReached
      | .ok body2 url2 cookies2 => loginFinish env (cookies0 ++ cookies2) body2 url2

/-! ### Order lemmas for the code-point lexicographic comparison -/

theorem strLeB_total (a b : Str) : strLeB a b = true ∨ strLeB b a = true := by
  induction a generalizing b with
  | nil => left; simp [strLeB]
  | cons x as ih =>
    cases b with
    | nil => right; simp [strLeB]
    | cons y bs =>
      rcases Nat.lt_trichotomy x y with h | h | h
      · left; simp [strLeB, h]
      · subst h
        rcases ih bs with h' | h'
        · left; simp [strLeB, h']
        · right; simp [strLeB, h']
      · right; simp [strLeB, h]

theorem strLeB_trans (a b c : Str) (h1 : strLeB a b = true) (h2 : strLeB b c = true) :
    strLeB a c = true := by
  induction a generalizing b c with
  | nil => simp [strLeB]
  | cons x as ih =>
    cases b with
    | nil => simp [strLeB] at h1
    | cons y bs =>
      cases c with
      | nil => simp [strLeB] at h2
      | cons z cs =>
        rcases Nat.lt_trichotomy x y with hxy | hxy | hxy
        · rcases Nat.lt_trichotomy y z with hyz | hyz | hyz
          · simp [strLeB, Nat.lt_trans hxy hyz]
          · subst hyz; simp [strLeB, hxy]
          · exfalso; simp [strLeB, Nat.lt_asymm hyz, Nat.ne_of_gt hyz] at h2
        · subst hxy
          rcases Nat.lt_trichotomy x z with hyz | hyz | hyz
          · simp [strLeB, hyz]
          · subst hyz
            simp only [strLeB, Nat.lt_irrefl, if_false, if_pos rfl] at h1 h2 ⊢
            exact ih bs cs h1 h2
          · exfalso; simp [strLeB, Nat.lt_asymm hyz, Nat.ne_of_gt hyz] at h2
        · exfalso; simp [strLeB, Nat.lt_asymm hxy, Nat.ne_of_gt hxy] at h1

theorem strLtB_of_le_ne (a b : Str) (h1 : strLeB a b = true) (h2 : a ≠ b) :
    strLtB a b = true := by
  induction a generalizing b with
  | nil =>
    cases b with
    | nil => exact absurd rfl h2
    | cons y bs => simp [strLtB]
  | cons x as ih =>
    cases b with
    | nil => simp [strLeB] at h1
    | cons y bs =>
      rcases Nat.lt_trichotomy x y with h | h | h
      · simp [strLtB, h]
      · subst h
        simp only [strLeB, Nat.lt_irrefl, if_false, if_pos rfl] at h1
        have hne : as ≠ bs := fun hh => h2 (by rw [hh])
        simp only [strLtB, Nat.lt_irrefl, if_false, if_pos rfl]
        exact ih bs h1 hne
      · exfalso; simp [strLeB, Nat.lt_asymm h, Nat.ne_of_gt h] at h1

instance : IsTotal DayRecord dayDateLe := ⟨fun a b => strLeB_total a.date b.date⟩

instance : IsTrans DayRecord dayDateLe := ⟨fun a b c => strLeB_trans a.date b.date c.date⟩

theorem strLtB_cons (x y : Nat) (xs ys : Str) :
    strLtB (x :: xs) (y :: ys) = true ↔ x < y ∨ (x = y ∧ strLtB xs ys = true) := by
  simp only [strLtB]
  split_ifs with h1 h2 <;> simp_all

/-! ### Monotonicity of `ymdToOrd`: lexicographically larger valid dates have
larger ordinals, hence canonical date strings sort chronologically. -/

theorem daysBeforeMonth_add_le (y m d : Nat) (hm1 : 1 ≤ m) (hm2 : m ≤ 12)
    (hd : d ≤ monthDays y m) :
    daysBeforeMonth y m + d ≤ 365 + (if isLeapYear y then 1 else 0) := by
  by_cases hL : isLeapYear y = true <;>
    (interval_cases m <;> simp_all [daysBeforeMonth, monthDays] <;> omega)

set_option maxHeartbeats 1000000 in
theorem daysBeforeYear_succ (y : Nat) (h : 1 ≤ y) :
    daysBeforeYear (y + 1) = daysBeforeYear y + (365 + (if isLeapYear y then 1 else 0)) := by
  have hb : isLeapYear y = true ↔ (y % 4 = 0 ∧ (y % 100 ≠ 0 ∨ y % 400 = 0)) := by
    simp [isLeapYear]
  unfold daysBeforeYear
  by_cases hc : y % 4 = 0 ∧ (y % 100 ≠ 0 ∨ y % 400 = 0)
  · rw [if_pos (hb.mpr hc)]; omega
  · rw [if_neg (fun hh => hc (hb.mp hh))]; omega

theorem daysBeforeYear_mono (y y' : Nat) (hy : 1 ≤ y) (h : y ≤ y') :
    daysBeforeYear y ≤ daysBeforeYear y' := by
  induction y' with
  | zero => omega
  | succ n ih =>
    rcases Nat.lt_or_ge y (n + 1) with hlt | hge
    · have hn : 1 ≤ n := by omega
      have hs := daysBeforeYear_succ n hn
      have hr := ih (by omega)
      split_ifs at hs <;> omega
    · have he : y = n + 1 := by omega
      subst he
      exact Nat.le_refl _

set_option maxHeartbeats 2000000 in
theorem ymdToOrd_lt (y m d y' m' d' : Nat)
    (hy1 : 1 ≤ y)
    (hm1 : 1 ≤ m) (hm2 : m ≤ 12) (hd1 : 1 ≤ d) (hd2 : d ≤ monthDays y m)
    (hm1' : 1 ≤ m') (hm2' : m' ≤ 12) (hd1' : 1 ≤ d') (hd2' : d' ≤ monthDays y' m')
    (hlex : y < y' ∨ (y = y' ∧ (m < m' ∨ (m = m' ∧ d < d')))) :
    ymdToOrd y m d < ymdToOrd y' m' d' := by
  rcases hlex with hy | ⟨rfl, hmm⟩
  · have h1 := daysBeforeMonth_add_le y m d hm1 hm2 hd2
    have h2 := daysBeforeYear_succ y hy1
    have h3 := daysBeforeYear_mono (y + 1) y' (by omega) hy
    have h4 : 0 < daysBeforeMonth y' m' + d' := by omega
    unfold ymdToOrd
    omega
  · rcases hmm with hm | ⟨rfl, hd⟩
    · have hkey : daysBeforeMonth y m + d < daysBeforeMonth y m' + d' := by
        by_cases hL : isLeapYear y = true <;>
          (interval_cases m <;> interval_cases m' <;>
            simp_all [daysBeforeMonth, monthDays] <;> omega)
      unfold ymdToOrd
      omega
    · unfold ymdToOrd
      omega

theorem strLtB_nil_nil : strLtB ([] : Str) [] = false := rfl

set_option maxHeartbeats 1000000 in
/-- Canonical `YYYY-MM-DD` strings compare the same way their dates do. -/
theorem parseIsoDate_lt (a b : Str) (oa ob : Nat)
    (ha : parseIsoDate a = some oa) (hb : parseIsoDate b = some ob)
    (hab : strLtB a b = true) : oa < ob := by
  unfold parseIsoDate at ha hb
  split at ha
  case h_2 => simp at ha
  case h_1 a1 a2 a3 a4 a5 a6 a7 a8 a9 a10 =>
    split at hb
    case h_2 => simp at hb
    case h_1 b1 b2 b3 b4 b5 b6 b7 b8 b9 b10 =>
      split_ifs at ha with hca <;> try simp at ha
      split_ifs at hb with hcb <;> try simp at hb
      obtain ⟨hva, ha⟩ := ha
      obtain ⟨hvb, hb⟩ := hb
      subst ha
      subst hb
      simp only [isDigitC, Bool.and_eq_true, decide_eq_true_eq] at hca hcb
      simp only [strLtB_cons, strLtB_nil_nil, Bool.false_eq_true, and_false, or_false]
        at hab
      obtain ⟨hv1, hv2, hv3, hv4, hv5⟩ := hva
      obtain ⟨hw1, hw2, hw3, hw4, hw5⟩ := hvb
      exact ymdToOrd_lt _ _ _ _ _ _ hv1 hv2 hv3 hv4 hv5 hw2 hw3 hw4 hw5 (by omega)

/-! ### Facts about `addDaysChecked` and the sync loop -/

theorem addDaysChecked_zero (o : Nat) (h1 : 1 ≤ o) (h2 : o ≤ maxOrd) :
    addDaysChecked o 0 = some o := by
  unfold addDaysChecked
  rw [if_pos (by omega)]
  simp

theorem addDaysChecked_le (o : Nat) (n : Int) (e : Nat) (hn : 0 ≤ n)
    (h : addDaysChecked o n = some e) : o ≤ e := by
  unfold addDaysChecked at h
  split_ifs at h with hc
  simp only [Option.some.injEq] at h
  omega

/-- The invariant the loop maintains on the accumulated days and seen dates. -/
def DaysInv (st en : Nat) (acc : List DayRecord) (seen : List Str) : Prop :=
  (∀ day ∈ acc, ∃ o, parseIsoDate day.date = some o ∧ st ≤ o ∧ o < en) ∧
  (acc.map (fun d => d.date)).Nodup ∧
  (∀ day ∈ acc, day.date ∈ seen)

theorem mergeDays_inv (st en : Nat) (ts : Str) :
    ∀ (days acc : List DayRecord) (seen : List Str) (acc2 : List DayRecord) (seen2 : List Str),
    DaysInv st en acc seen →
    mergeDays st en ts days acc seen = some (acc2, seen2) →
    DaysInv st en acc2 seen2
  | [], acc, seen, acc2, seen2, hinv, h => by
    simp only [mergeDays, Option.some.injEq, Prod.mk.injEq] at h
    obtain ⟨rfl, rfl⟩ := h
    exact hinv
  | day :: rest, acc, seen, acc2, seen2, hinv, h => by
    unfold mergeDays at h
    split_ifs at h with hg
    · cases hp : parseIsoDate day.date with
      | none => rw [hp] at h; simp at h
      | some o =>
        simp only [hp] at h
        split_ifs at h with hr
        · refine mergeDays_inv st en ts rest _ _ acc2 seen2 ?_ h
          refine ⟨?_, ?_, ?_⟩
          · intro d hd
            rcases List.mem_append.mp hd with hd | hd
            · exact hinv.1 d hd
            · simp only [List.mem_singleton] at hd
              subst hd
              exact ⟨o, hp, hr.1, hr.2⟩
          · rw [List.map_append]
            rw [List.nodup_append]
            refine ⟨hinv.2.1, by simp, ?_⟩
            intro x hx
            simp only [List.mem_map] at hx
            obtain ⟨d, hd, rfl⟩ := hx
            simp only [List.map_cons, List.map_nil, List.mem_singleton]
            intro hcontra
            exact hg.2 (hcontra ▸ hinv.2.2 d hd)
          · intro d hd
            rcases List.mem_append.mp hd with hd | hd
            · exact List.mem_cons_of_mem _ (hinv.2.2 d hd)
            · simp only [List.mem_singleton] at hd
              subst hd
              exact List.mem_cons_self _ _
        · exact mergeDays_inv st en ts rest _ _ acc2 seen2 hinv h
    · exact mergeDays_inv st en ts rest _ _ acc2 seen2 hinv h

theorem syncLoop_done_inv (env : Str → Int × Str) (ts : Str) (st en : Nat) :
    ∀ (fuel k : Nat) (acc : List DayRecord) (seen : List Str) (fc : Nat)
      (acc2 : List DayRecord) (fc2 : Nat),
    DaysInv st en acc seen →
    syncLoop env ts st en k fuel acc seen fc = .done acc2 fc2 →
    (∀ day ∈ acc2, ∃ o, parseIsoDate day.date = some o ∧ st ≤ o ∧ o < en) ∧
    (acc2.map (fun d => d.date)).Nodup
  | 0, k, acc, seen, fc, acc2, fc2, hinv, h => by
    simp only [syncLoop, LoopOut.done.injEq] at h
    exact h.1 ▸ ⟨hinv.1, hinv.2.1⟩
  | fuel + 1, k, acc, seen, fc, acc2, fc2, hinv, h => by
    unfold syncLoop at h
    cases hadd : addDaysChecked st (7 * k) with
    | none => rw [hadd] at h; simp at h
    | some wk =>
      simp only [hadd] at h
      split_ifs at h with hpast hempty hk0
      · try simp only [LoopOut.done.injEq] at h
        exact h.1 ▸ ⟨hinv.1, hinv.2.1⟩
      · try simp only [LoopOut.done.injEq] at h
        exact h.1 ▸ ⟨hinv.1, hinv.2.1⟩
      · cases hm : mergeDays st en ts (fetch_week env (isoformat wk)) acc seen with
        | none => rw [hm] at h; simp at h
        | some p =>
          obtain ⟨pa, ps⟩ := p
          simp only [hm] at h
          exact syncLoop_done_inv env ts st en fuel (k + 1) pa ps (fc + 1) acc2 fc2
            (mergeDays_inv st en ts _ acc seen pa ps hinv hm) h

/-- Characterization of a successful sync: the end date computed, the loop
finished normally, and the snapshot wraps the sorted accumulated days. -/
theorem sync_ok_elim (env : Str → Int × Str) (cookies : List (Str × Str)) (since : Str)
    (dc : Int) (today : Nat) (now : Str) (snap : Snapshot)
    (h : (sync_weekplan env cookies since dc today now).result = .ok snap) :
    ∃ e acc fc, addDaysChecked (effectiveStart since today) dc = some e ∧
      syncLoop env (isoformat today) (effectiveStart since today) e 0
        (dc.fdiv 7 + 2).toNat [] [] 0 = .done acc fc ∧
      snap = ⟨now, since, sortDays acc⟩ := by
  unfold sync_weekplan at h
  split_ifs at h with hauth
  cases hadd : addDaysChecked (effectiveStart since today) dc with
  | none => rw [hadd] at h; simp at h
  | some e =>
    simp only [hadd] at h
    cases hloop : syncLoop env (isoformat today) (effectiveStart since today) e 0
        (dc.fdiv 7 + 2).toNat [] [] 0 with
    | crashed fc => simp only [hloop] at h; simp at h
    | sessionExpired fc => simp only [hloop] at h; simp at h
    | done acc fc =>
      simp only [hloop] at h
      simp only [SyncResult.ok.injEq] at h
      exact ⟨e, acc, fc, rfl, hloop, h.symm⟩

/-- Strict date order on extracted day records, through their parsed dates. -/
def dayOrdLt (a b : DayRecord) : Prop :=
  ∀ oa ob, parseIsoDate a.date = some oa → parseIsoDate b.date = some ob → oa < ob

/-- C1: for every call of `sync_weekplan` that returns a snapshot, every day of
the snapshot has a date in `[startDate, startDate + dayCount)` (the model's
checked date addition), and the day sequence is strictly increasing by date —
in particular sorted ascending with no duplicate dates. -/
theorem c1_snapshot_range_sorted (env : Str → Int × Str) (cookies : List (Str × Str))
    (since : Str) (dc : Int) (today : Nat) (now : Str) (snap : Snapshot)
    (h : (sync_weekplan env cookies since dc today now).result = .ok snap) :
    (∃ e, addDaysChecked (effectiveStart since today) dc = some e ∧
      ∀ day ∈ snap.days, ∃ o, parseIsoDate day.date = some o ∧
        effectiveStart since today ≤ o ∧ o < e) ∧
    snap.days.Pairwise dayOrdLt := by
  obtain ⟨e, acc, fc, hadd, hloop, hsnap⟩ :=
    sync_ok_elim env cookies since dc today now snap h
  have hinv0 : DaysInv (effectiveStart since today) e [] [] := by
    refine ⟨?_, ?_, ?_⟩ <;> simp [DaysInv]
  obtain ⟨hall, hnodup⟩ := syncLoop_done_inv env (isoformat today)
    (effectiveStart since today) e _ _ _ _ _ _ _ hinv0 hloop
  have hperm : List.Perm (sortDays acc) acc := List.perm_insertionSort dayDateLe acc
  constructor
  · refine ⟨e, hadd, ?_⟩
    intro day hday
    rw [hsnap] at hday
    exact hall day (hperm.mem_iff.mp hday)
  · rw [hsnap]
    have hsorted : (sortDays acc).Pairwise dayDateLe :=
      List.sorted_insertionSort dayDateLe acc
    have hnodup2 : ((sortDays acc).map (fun d => d.date)).Nodup :=
      ((hperm.map (fun d => d.date)).nodup_iff).mpr hnodup
    have hne : (sortDays acc).Pairwise (fun a b => a.date ≠ b.date) :=
      List.pairwise_map.mp hnodup2
    refine (hsorted.and hne).imp ?_
    intro a b hab oa ob hpa hpb
    exact parseIsoDate_lt a.date b.date oa ob hpa hpb
      (strLtB_of_le_ne a.date b.date hab.1 hab.2)

/-- Week page used by the concrete sync runs below. -/
def wk1Html : Str := str ("<plan-week-day date=\"2024-01-01\"><core-tile data-recipe-id=\"r1\" x><span class=\"core-tile__description-text\">A</span>,</core-tile></plan-week-day><plan-week-day date=\"2024-01-03\"><p>x</p></plan-week-day>")

/-- Second week page used by the concrete sync runs below. -/
def wk2Html : Str := str ("<plan-week-day date=\"2024-01-08\"><p>y</p></plan-week-day><plan-week-day date=\"2024-01-03\"><p>dup</p></plan-week-day>")

/-- A remote service serving the two week pages. -/
def envTwoWeeks : Str → Int × Str := fun s =>
  if s = str ("2024-01-01") then (200, wk1Html)
  else if s = str ("2024-01-08") then (200, wk2Html)
  else (200, [])

/-- An authenticated cookie store. -/
def cookiesAuth : List (Str × Str) := [(str ("v-authenticated"), str ("1"))]

/-- The concrete sync run used by the C1 witness (today is 2024-01-03). -/
def c1Run : SyncRun :=
  sync_weekplan envTwoWeeks cookiesAuth (str ("2024-01-01")) 14 (ymdToOrd 2024 1 3) (str ("TS"))

/-- The snapshot of `c1Run`. -/
def c1Snap : Snapshot :=
  match c1Run.result with
  | .ok s => s
  | _ => ⟨[], [], []⟩

/-- The fetch count carried by a loop outcome. -/
def fcOf : LoopOut → Nat
  | .crashed fc => fc
  | .sessionExpired fc => fc
  | .done _ fc => fc

/-- An empty first week aborts the sync with the session-expired error after
exactly one fetch. -/
theorem sync_session_expired (env : Str → Int × Str) (cookies : List (Str × Str))
    (since : Str) (dc : Int) (today : Nat) (now : Str)
    (hauth : is_authenticated cookies = true) (hdc : 0 ≤ dc)
    (h1 : 1 ≤ effectiveStart since today) (h2 : effectiveStart since today ≤ maxOrd)
    (he : (addDaysChecked (effectiveStart since today) dc).isSome)
    (hfw : fetch_week env (isoformat (effectiveStart since today)) = []) :
    sync_weekplan env cookies since dc today now =
      ⟨.error (str ("Session abgelaufen oder keine Daten. Bitte neu einloggen.")), 1⟩ := by
  unfold sync_weekplan
  rw [if_neg (by simp [hauth])]
  obtain ⟨e, he'⟩ := Option.isSome_iff_exists.mp he
  simp only [he']
  have hfd : 0 ≤ dc.fdiv 7 := Int.fdiv_nonneg hdc (by norm_num)
  have hwn : (dc.fdiv 7 + 2).toNat = (dc.fdiv 7).toNat + 1 + 1 := by omega
  rw [hwn]
  rw [syncLoop]
  simp only [Nat.cast_zero, mul_zero, addDaysChecked_zero _ h1 h2]
  have hle : effectiveStart since today ≤ e := addDaysChecked_le _ dc e hdc he'
  rw [if_neg (show ¬ e < effectiveStart since today from by omega)]
  rw [hfw]
  simp

/-- If some fetched offset `k ≥ 1` yields an empty week, the loop ends normally
with the days accumulated so far. -/
theorem syncLoop_later_empty (env : Str → Int × Str) (ts : Str) (st en : Nat) :
    ∀ (fuel k0 : Nat) (acc : List DayRecord) (seen : List Str) (fc0 : Nat) (k wk : Nat),
    k0 ≤ k → 1 ≤ k → addDaysChecked st (7 * k) = some wk →
    fetch_week env (isoformat wk) = [] →
    fc0 + (k - k0) < fcOf (syncLoop env ts st en k0 fuel acc seen fc0) →
    ∃ acc2 fc2, syncLoop env ts st en k0 fuel acc seen fc0 = .done acc2 fc2
  | 0, k0, acc, seen, fc0, k, wk, hk0, hk1, hadd, hfw, hfc => ⟨acc, fc0, rfl⟩
  | fuel + 1, k0, acc, seen, fc0, k, wk, hk0, hk1, hadd, hfw, hfc => by
    rw [syncLoop] at hfc ⊢
    cases hadd0 : addDaysChecked st (7 * (k0 : Int)) with
    | none =>
      simp only [hadd0] at hfc
      simp [fcOf] at hfc
    | some wk0 =>
      simp only [hadd0] at hfc ⊢
      split_ifs at hfc ⊢ with hpast hempty hz0
      · exact ⟨acc, fc0, rfl⟩
      · exfalso
        subst hz0
        simp [fcOf] at hfc
        omega
      · exact ⟨acc, fc0 + 1, rfl⟩
      · rcases Nat.eq_or_lt_of_le hk0 with hkeq | hklt
        · exfalso
          subst hkeq
          rw [hadd] at hadd0
          cases hadd0
          exact hempty hfw
        · cases hm : mergeDays st en ts (fetch_week env (isoformat wk0)) acc seen with
          | none =>
            simp only [hm] at hfc
            simp [fcOf] at hfc
            omega
          | some p =>
            obtain ⟨pa, ps⟩ := p
            simp only [hm] at hfc ⊢
            exact syncLoop_later_empty env ts st en fuel (k0 + 1) pa ps (fc0 + 1) k wk
              hklt hk1 hadd hfw (by omega)

/-- The merge step cannot raise when every non-empty extracted date parses. -/
theorem mergeDays_isSome (st en : Nat) (ts : Str) :
    ∀ (days acc : List DayRecord) (seen : List Str),
    (∀ day ∈ days, day.date ≠ [] → (parseIsoDate day.date).isSome) →
    (mergeDays st en ts days acc seen).isSome
  | [], acc, seen, _ => by simp [mergeDays]
  | day :: rest, acc, seen, hv => by
    unfold mergeDays
    split_ifs with hg
    · cases hp : parseIsoDate day.date with
      | none =>
        exfalso
        have := hv day (List.mem_cons_self _ _) hg.1
        rw [hp] at this
        simp at this
      | some o =>
        dsimp only
        split_ifs with hr
        · exact mergeDays_isSome st en ts rest _ _
            (fun d hd => hv d (List.mem_cons_of_mem _ hd))
        · exact mergeDays_isSome st en ts rest _ _
            (fun d hd => hv d (List.mem_cons_of_mem _ hd))
    · exact mergeDays_isSome st en ts rest _ _
        (fun d hd => hv d (List.mem_cons_of_mem _ hd))

/-- The loop cannot crash when extracted dates parse and the week-start
arithmetic stays in range. -/
theorem syncLoop_no_crash (env : Str → Int × Str) (ts : Str) (st en : Nat) :
    ∀ (fuel k : Nat) (acc : List DayRecord) (seen : List Str) (fc : Nat),
    (∀ w day, day ∈ fetch_week env w → day.date ≠ [] → (parseIsoDate day.date).isSome) →
    (∀ j : Nat, k ≤ j → j < k + fuel → (addDaysChecked st (7 * j)).isSome) →
    ∀ fc2, syncLoop env ts st en k fuel acc seen fc ≠ .crashed fc2
  | 0, k, acc, seen, fc, _, _, fc2 => by simp [syncLoop]
  | fuel + 1, k, acc, seen, fc, hv, hks, fc2 => by
    intro h
    rw [syncLoop] at h
    obtain ⟨wk, hwk⟩ := Option.isSome_iff_exists.mp (hks k (Nat.le_refl k) (by omega))
    simp only [hwk] at h
    split_ifs at h with hpast hempty hz0
    · cases hm : mergeDays st en ts (fetch_week env (isoformat wk)) acc seen with
      | none =>
        have := mergeDays_isSome st en ts (fetch_week env (isoformat wk)) acc seen
          (fun d hd => hv (isoformat wk) d hd)
        rw [hm] at this
        simp at this
      | some p =>
        obtain ⟨pa, ps⟩ := p
        simp only [hm] at h
        exact syncLoop_no_crash env ts st en fuel (k + 1) pa ps (fc + 1) hv
          (fun j hj1 hj2 => hks j (by omega) (by omega)) fc2 h

/-- C5: when the loaded cookie store does not satisfy the authenticated
predicate, `sync_weekplan` immediately returns the "not logged in" error and
issues no week fetch at all. -/
theorem c5_not_logged_in (env : Str → Int × Str) (cookies : List (Str × Str))
    (since : Str) (dc : Int) (today : Nat) (now : Str)
    (h : is_authenticated cookies = false) :
    sync_weekplan env cookies since dc today now =
      ⟨.error (str ("Keine gültigen Cookies. Bitte zuerst einloggen.")), 0⟩ := by
  simp [sync_weekplan, h]

theorem c5_not_logged_in_witness :
    sync_weekplan envTwoWeeks [] (str ("2024-01-01")) 14 (ymdToOrd 2024 1 3) (str ("TS")) =
      ⟨.error (str ("Keine gültigen Cookies. Bitte zuerst einloggen.")), 0⟩ :=
  c5_not_logged_in envTwoWeeks [] (str ("2024-01-01")) 14 (ymdToOrd 2024 1 3) (str ("TS"))
    (by decide)

/-- C6: markup extraction is a total function; on empty input it returns the
empty sequence, and every recipe record it ever emits has a non-empty title (a
tile whose title pattern is missing or blank is silently dropped). -/
theorem c6_extraction_total_titles :
    parse_weekplan_html (str ("")) = [] ∧
    ∀ html day r, day ∈ parse_weekplan_html html → r ∈ day.recipes → r.title ≠ [] := by
  constructor
  · rfl
  · intro html day r hd hr
    unfold parse_weekplan_html at hd
    obtain ⟨p, hp, rfl⟩ := List.mem_map.mp hd
    simp only [mkDay] at hr
    obtain ⟨q, hq, hmk⟩ := List.mem_filterMap.mp hr
    unfold mkRecipe at hmk
    cases ht : scanClassText (str ("class=\"core-tile__description-text\">")) q.2 with
    | none => rw [ht] at hmk; simp at hmk
    | some t =>
      rw [ht] at hmk
      dsimp only at hmk
      split_ifs at hmk with hz
      injection hmk with hmk2
      rw [← hmk2]
      exact hz

/-- The first extracted day of the first test week page. -/
def c6Day : DayRecord :=
  match parse_weekplan_html wk1Html with
  | d :: _ => d
  | [] => ⟨[], [], [], false, []⟩

/-- Its first recipe. -/
def c6Recipe : RecipeRecord :=
  match c6Day.recipes with
  | r :: _ => r
  | [] => ⟨[], [], [], none⟩

set_option maxRecDepth 40000 in
theorem c6_extraction_total_titles_witness : c6Recipe.title ≠ [] :=
  c6_extraction_total_titles.2 wk1Html c6Day c6Recipe (by decide) (by decide)

/-- C7: two syncs with identical inputs against an unchanged remote service and
wall clock yield snapshots equal except for the timestamp field. -/
theorem c7_idempotent (env : Str → Int × Str) (cookies : List (Str × Str)) (since : Str)
    (dc : Int) (today : Nat) (now1 now2 : Str) (s1 s2 : Snapshot)
    (h1 : (sync_weekplan env cookies since dc today now1).result = .ok s1)
    (h2 : (sync_weekplan env cookies since dc today now2).result = .ok s2) :
    s1.timestamp = now1 ∧ s2.timestamp = now2 ∧
    s1.sinceDate = s2.sinceDate ∧ s1.days = s2.days := by
  obtain ⟨e1, a1, f1, hadd1, hloop1, hs1⟩ := sync_ok_elim env cookies since dc today now1 s1 h1
  obtain ⟨e2, a2, f2, hadd2, hloop2, hs2⟩ := sync_ok_elim env cookies since dc today now2 s2 h2
  rw [hadd1] at hadd2
  obtain rfl : e1 = e2 := by simpa using hadd2
  rw [hloop1] at hloop2
  obtain ⟨rfl, rfl⟩ : a1 = a2 ∧ f1 = f2 := by simpa using hloop2
  subst hs1
  subst hs2
  exact ⟨rfl, rfl, rfl, rfl⟩

/-- The C7 witness snapshot from timestamp `T1`. -/
def c7SnapA : Snapshot :=
  match (sync_weekplan envTwoWeeks cookiesAuth (str ("2024-01-01")) 14 (ymdToOrd 2024 1 3)
      (str ("T1"))).result with
  | .ok s => s
  | _ => ⟨[], [], []⟩

/-- The C7 witness snapshot from timestamp `T2`. -/
def c7SnapB : Snapshot :=
  match (sync_weekplan envTwoWeeks cookiesAuth (str ("2024-01-01")) 14 (ymdToOrd 2024 1 3)
      (str ("T2"))).result with
  | .ok s => s
  | _ => ⟨[], [], []⟩

set_option maxRecDepth 40000 in
theorem c7_idempotent_witness :
    c7SnapA.timestamp = str ("T1") ∧ c7SnapB.timestamp = str ("T2") ∧
    c7SnapA.sinceDate = c7SnapB.sinceDate ∧ c7SnapA.days = c7SnapB.days :=
  c7_idempotent envTwoWeeks cookiesAuth (str ("2024-01-01")) 14 (ymdToOrd 2024 1 3)
    (str ("T1")) (str ("T2")) c7SnapA c7SnapB (by decide) (by decide)

set_option maxRecDepth 40000 in
theorem c1_snapshot_range_sorted_witness :
    (∃ e, addDaysChecked (effectiveStart (str ("2024-01-01")) (ymdToOrd 2024 1 3)) 14 = some e ∧
      ∀ day ∈ c1Snap.days, ∃ o, parseIsoDate day.date = some o ∧
        effectiveStart (str ("2024-01-01")) (ymdToOrd 2024 1 3) ≤ o ∧ o < e) ∧
    c1Snap.days.Pairwise dayOrdLt :=
  c1_snapshot_range_sorted envTwoWeeks cookiesAuth (str ("2024-01-01")) 14
    (ymdToOrd 2024 1 3) (str ("TS")) c1Snap (by decide)


/-- Week page carrying a day whose date attribute is not a valid ISO date. -/
def wkBadHtml : Str := str ("<plan-week-day date=\"notadate\"><p>x</p></plan-week-day>")

/-- A remote service always serving the malformed-date page. -/
def envBadDate : Str → Int × Str := fun _ => (200, wkBadHtml)

set_option maxRecDepth 40000 in
/-- C2 counterexample: a week page whose extracted day record carries a
non-ISO date string makes `sync_weekplan` raise (the uncaught `ValueError`
from `date.fromisoformat` at the merge step), so sync does not return a
result value on every input. -/
theorem c2_counterexample_crash :
    (sync_weekplan envBadDate cookiesAuth (str ("2024-01-01")) 14 (ymdToOrd 2024 1 3)
      (str ("TS"))).result = SyncResult.crash := by decide

/-- C2 (amended): an unparsable `since` string is caught and replaced by the
current date, and `sync_weekplan` raises no exception provided every non-empty
extracted day date parses as an ISO date and the week-window date arithmetic
stays inside the representable date range. -/
theorem c2_no_crash_amended :
    (∀ (env : Str → Int × Str) (cookies : List (Str × Str)) (since : Str) (dc : Int)
        (today : Nat) (now : Str),
      (∀ (w : Str), ∀ day ∈ fetch_week env w, day.date ≠ [] → (parseIsoDate day.date).isSome) →
      (∀ j : Nat, j < (dc.fdiv 7 + 2).toNat →
        (addDaysChecked (effectiveStart since today) (7 * j)).isSome) →
      (addDaysChecked (effectiveStart since today) dc).isSome →
      (sync_weekplan env cookies since dc today now).result ≠ SyncResult.crash) ∧
    (∀ (since : Str) (today : Nat), parseIsoDate since = none →
      effectiveStart since today = today) := by
  constructor
  · intro env cookies since dc today now hv hks he
    unfold sync_weekplan
    split_ifs with hauth
    · obtain ⟨e, he2⟩ := Option.isSome_iff_exists.mp he
      simp only [he2]
      cases hloop : syncLoop env (isoformat today) (effectiveStart since today) e 0
          (dc.fdiv 7 + 2).toNat [] [] 0 with
      | crashed fc =>
        exact absurd hloop (syncLoop_no_crash env (isoformat today)
          (effectiveStart since today) e _ 0 [] [] 0
          (fun w day hd hne => hv w day hd hne)
          (fun j hj0 hjlt => hks j (by omega)) fc)
      | sessionExpired fc => simp [hloop]
      | done acc fc => simp [hloop]
    · simp
  · intro since today h
    unfold effectiveStart
    rw [h]
    rfl

/-- A remote service serving the first test week page for every week. -/
def envOneWeek : Str → Int × Str := fun _ => (200, wk1Html)

set_option maxRecDepth 40000 in
theorem c2_no_crash_amended_witness :
    (sync_weekplan envOneWeek cookiesAuth (str ("2024-01-01")) 14 (ymdToOrd 2024 1 3)
      (str ("TS"))).result ≠ SyncResult.crash ∧
    effectiveStart (str ("garbage-date")) (ymdToOrd 2024 1 3) = ymdToOrd 2024 1 3 :=
  ⟨c2_no_crash_amended.1 envOneWeek cookiesAuth (str ("2024-01-01")) 14 (ymdToOrd 2024 1 3)
      (str ("TS"))
      (fun w day hd hne => by
        have hfw : fetch_week envOneWeek w = parse_weekplan_html wk1Html := rfl
        rw [hfw] at hd
        exact (by decide : ∀ d ∈ parse_weekplan_html wk1Html, d.date ≠ [] →
          (parseIsoDate d.date).isSome) day hd hne)
      (by decide) (by decide),
   c2_no_crash_amended.2 (str ("garbage-date")) (ymdToOrd 2024 1 3) (by decide)⟩

/-- C3: with an authenticated store and a week-0 fetch that is possible, an
empty day list at offset 0 aborts the sync with the session-expired error (and
no snapshot), while an empty day list at a fetched offset `k ≥ 1` makes the
sync return the accumulated days as a successful snapshot. -/
theorem c3_empty_week_policy (env : Str → Int × Str) (cookies : List (Str × Str))
    (since : Str) (dc : Int) (today : Nat) (now : Str)
    (hauth : is_authenticated cookies = true) (hdc : 0 ≤ dc)
    (h1 : 1 ≤ effectiveStart since today) (h2 : effectiveStart since today ≤ maxOrd)
    (he : (addDaysChecked (effectiveStart since today) dc).isSome) :
    (fetch_week env (isoformat (effectiveStart since today)) = [] →
      (sync_weekplan env cookies since dc today now).result =
        .error (str ("Session abgelaufen oder keine Daten. Bitte neu einloggen.")) ∧
      (sync_weekplan env cookies since dc today now).fetchCount = 1) ∧
    (∀ k wk : Nat, 1 ≤ k →
      addDaysChecked (effectiveStart since today) (7 * k) = some wk →
      fetch_week env (isoformat wk) = [] →
      k < (sync_weekplan env cookies since dc today now).fetchCount →
      ∃ s, (sync_weekplan env cookies since dc today now).result = .ok s) := by
  constructor
  · intro hfw
    rw [sync_session_expired env cookies since dc today now hauth hdc h1 h2 he hfw]
    exact ⟨rfl, rfl⟩
  · intro k wk hk haddk hfwk hcount
    obtain ⟨e, he2⟩ := Option.isSome_iff_exists.mp he
    have hsync : sync_weekplan env cookies since dc today now =
        (match syncLoop env (isoformat today) (effectiveStart since today) e 0
            (dc.fdiv 7 + 2).toNat [] [] 0 with
         | .crashed fc => ⟨.crash, fc⟩
         | .sessionExpired fc =>
           ⟨.error (str ("Session abgelaufen oder keine Daten. Bitte neu einloggen.")), fc⟩
         | .done acc fc => ⟨.ok ⟨now, since, sortDays acc⟩, fc⟩) := by
      unfold sync_weekplan
      rw [if_neg (by simp [hauth])]
      simp only [he2]
    have hfc : (sync_weekplan env cookies since dc today now).fetchCount =
        fcOf (syncLoop env (isoformat today) (effectiveStart since today) e 0
          (dc.fdiv 7 + 2).toNat [] [] 0) := by
      rw [hsync]
      cases syncLoop env (isoformat today) (effectiveStart since today) e 0
        (dc.fdiv 7 + 2).toNat [] [] 0 <;> rfl
    obtain ⟨acc2, fc2, hdone⟩ := syncLoop_later_empty env (isoformat today)
      (effectiveStart since today) e (dc.fdiv 7 + 2).toNat 0 [] [] 0 k wk
      (Nat.zero_le k) hk haddk hfwk (by rw [hfc] at hcount; omega)
    refine ⟨⟨now, since, sortDays acc2⟩, ?_⟩
    rw [hsync, hdone]

/-- A remote service whose every response is HTTP 401. -/
def env401 : Str → Int × Str := fun _ => (401, [])

set_option maxRecDepth 40000 in
theorem c3_empty_week_policy_witness :
    ((sync_weekplan env401 cookiesAuth (str ("2024-01-01")) 14 (ymdToOrd 2024 1 3)
        (str ("TS"))).result =
      .error (str ("Session abgelaufen oder keine Daten. Bitte neu einloggen.")) ∧
     (sync_weekplan env401 cookiesAuth (str ("2024-01-01")) 14 (ymdToOrd 2024 1 3)
        (str ("TS"))).fetchCount = 1) ∧
    (∃ s, (sync_weekplan envTwoWeeks cookiesAuth (str ("2024-01-01")) 14 (ymdToOrd 2024 1 3)
        (str ("TS"))).result = .ok s) :=
  ⟨(c3_empty_week_policy env401 cookiesAuth (str ("2024-01-01")) 14 (ymdToOrd 2024 1 3)
      (str ("TS")) (by decide) (by decide) (by decide) (by decide) (by decide)).1 (by decide),
   (c3_empty_week_policy envTwoWeeks cookiesAuth (str ("2024-01-01")) 14 (ymdToOrd 2024 1 3)
      (str ("TS")) (by decide) (by decide) (by decide) (by decide) (by decide)).2
     2 (ymdToOrd 2024 1 15) (by decide) (by decide) (by decide) (by decide)⟩

/-- C10: a 200 body containing the login-start marker anywhere, or `login`
case-insensitively within the first 500 characters, is treated exactly like an
empty week; at offset 0 such a response therefore triggers the session-expired
error. -/
theorem c10_login_body_is_empty_week (env : Str → Int × Str) (w body : Str)
    (henv : env w = (200, body))
    (hm : hasSub (str ("oauth2/start")) body = true ∨
      hasSub (str ("login")) ((lowerStr body).take 500) = true) :
    fetch_week env w = [] ∧
    ∀ (cookies : List (Str × Str)) (since : Str) (dc : Int) (today : Nat) (now : Str),
      is_authenticated cookies = true → 0 ≤ dc →
      1 ≤ effectiveStart since today → effectiveStart since today ≤ maxOrd →
      (addDaysChecked (effectiveStart since today) dc).isSome →
      w = isoformat (effectiveStart since today) →
      (sync_weekplan env cookies since dc today now).result =
        .error (str ("Session abgelaufen oder keine Daten. Bitte neu einloggen.")) := by
  have hfw : fetch_week env w = [] := by
    unfold fetch_week
    rw [henv]
    rcases hm with hm | hm <;> simp [hm]
  refine ⟨hfw, ?_⟩
  intro cookies since dc today now hauth hdc h1 h2 he hw
  have hs := sync_session_expired env cookies since dc today now hauth hdc h1 h2 he
    (by rw [← hw]; exact hfw)
  rw [hs]

/-- A remote service that answers every fetch with the login page. -/
def envLoginPage : Str → Int × Str :=
  fun _ => (200, str ("<html>redirecting to oauth2/start ...</html>"))

set_option maxRecDepth 40000 in
theorem c10_login_body_is_empty_week_witness :
    fetch_week envLoginPage (str ("2024-01-01")) = [] ∧
    (sync_weekplan envLoginPage cookiesAuth (str ("2024-01-01")) 14 (ymdToOrd 2024 1 3)
      (str ("TS"))).result =
      .error (str ("Session abgelaufen oder keine Daten. Bitte neu einloggen.")) :=
  ⟨(c10_login_body_is_empty_week envLoginPage (str ("2024-01-01"))
      (str ("<html>redirecting to oauth2/start ...</html>")) (by decide)
      (Or.inl (by decide))).1,
   (c10_login_body_is_empty_week envLoginPage (str ("2024-01-01"))
      (str ("<html>redirecting to oauth2/start ...</html>")) (by decide)
      (Or.inl (by decide))).2 cookiesAuth (str ("2024-01-01")) 14 (ymdToOrd 2024 1 3)
      (str ("TS")) (by decide) (by decide) (by decide) (by decide) (by decide) (by decide)⟩


/-! ### Login-flow theorems -/

/-- `loginFinish` writes the serialized jar exactly when it succeeds. -/
theorem loginFinish_fields (env : Nat → Str → NetResp) (jar : List NetCookie)
    (body url : Str) :
    ((loginFinish env jar body url).saved.isSome ↔
      (loginFinish env jar body url).success = true) ∧
    ((loginFinish env jar body url).success = true →
      (loginFinish env jar body url).saved =
        some (save_cookies_from_jar (loginFinish env jar body url).jar)) := by
  unfold loginFinish
  dsimp only
  split_ifs with ha <;> simp [mkFailRun]

/-- Every run of `do_login` either fails before the redirect phase or ends in
`loginFinish`. -/
theorem do_login_cases (env : Nat → Str → NetResp) (email password : Str) :
    (∃ msg jar body, do_login env email password = mkFailRun msg jar body 0 .notReached) ∨
    (∃ jar body url, do_login env email password = loginFinish env jar body url) := by
  unfold do_login
  cases h0 : env 0 oauthStartUrl with
  | httpError code loc => exact Or.inl ⟨_, _, _, rfl⟩
  | exn m => exact Or.inl ⟨_, _, _, rfl⟩
  | ok body url cookies =>
    dsimp only
    cases hsb : scanRequestIdBody body with
    | some v =>
      dsimp only
      cases h1 : env 1 loginPostUrl with
      | exn m => exact Or.inl ⟨_, _, _, rfl⟩
      | httpError code loc =>
        dsimp only
        split_ifs with hcode
        · exact Or.inr ⟨_, _, _, rfl⟩
        · exact Or.inl ⟨_, _, _, rfl⟩
      | ok b2 u2 c2 => exact Or.inr ⟨_, _, _, rfl⟩
    | none =>
      dsimp only
      cases hsu : scanRequestIdUrl url with
      | none => exact Or.inl ⟨_, _, _, rfl⟩
      | some v =>
        dsimp only
        cases h1 : env 1 loginPostUrl with
        | exn m => exact Or.inl ⟨_, _, _, rfl⟩
        | httpError code loc =>
          dsimp only
          split_ifs with hcode
          · exact Or.inr ⟨_, _, _, rfl⟩
          · exact Or.inl ⟨_, _, _, rfl⟩
        | ok b2 u2 c2 => exact Or.inr ⟨_, _, _, rfl⟩

/-- C4: `do_login` overwrites the persisted cookie store exactly when it
returns success, and then with the full serialized jar; every failure branch
leaves the store untouched. -/
theorem c4_store_written_iff_success (env : Nat → Str → NetResp) (email password : Str) :
    ((do_login env email password).saved.isSome ↔
      (do_login env email password).success = true) ∧
    ((do_login env email password).success = true →
      (do_login env email password).saved =
        some (save_cookies_from_jar (do_login env email password).jar)) := by
  rcases do_login_cases env email password with ⟨msg, jar, body, hcase⟩ | ⟨jar, body, url, hcase⟩
  · rw [hcase]
    simp [mkFailRun]
  · rw [hcase]
    exact loginFinish_fields env jar body url

/-- Step-4 message selection of a failing `loginFinish`. -/
theorem loginFinish_failure (env : Nat → Str → NetResp) (jar : List NetCookie)
    (body url : Str)
    (hnoauth : authCookiesPresent (loginFinish env jar body url).jar = false) :
    (loginFinish env jar body url).success = false ∧
    (wrongPwHit (loginFinish env jar body url).lastBody = true →
      (loginFinish env jar body url).message = str ("Falsches Passwort")) ∧
    (wrongPwHit (loginFinish env jar body url).lastBody = false →
      notFoundHit (loginFinish env jar body url).lastBody = true →
      (loginFinish env jar body url).message = str ("E-Mail-Adresse nicht gefunden")) ∧
    (wrongPwHit (loginFinish env jar body url).lastBody = false →
      notFoundHit (loginFinish env jar body url).lastBody = false →
      (loginFinish env jar body url).message =
        str ("Login fehlgeschlagen - keine Auth-Cookies erhalten")) := by
  unfold loginFinish at hnoauth ⊢
  dsimp only at hnoauth ⊢
  split_ifs at hnoauth ⊢ with ha
  · simp [ha] at hnoauth
  · refine ⟨rfl, ?_, ?_, ?_⟩
    · intro hw
      simp only [mkFailRun] at hw ⊢
      simp [failureMessage, hw]
    · intro hw hn
      simp only [mkFailRun] at hw hn ⊢
      simp [failureMessage, hw, hn]
    · intro hw hn
      simp only [mkFailRun] at hw hn ⊢
      simp [failureMessage, hw, hn]

/-- C8: when login ends past the early failures and without the designated
auth cookies, it fails with the wrong-password message when a wrong-password
phrase is found in the (lowercased) last body, else with the account-not-found
message when an account-not-found phrase is found, and otherwise with the
generic no-auth-cookies message. -/
theorem c8_failure_message_selection (env : Nat → Str → NetResp) (email password : Str)
    (hend : (do_login env email password).ending ≠ EndReason.notReached)
    (hnoauth : authCookiesPresent (do_login env email password).jar = false) :
    (do_login env email password).success = false ∧
    (wrongPwHit (do_login env email password).lastBody = true →
      (do_login env email password).message = str ("Falsches Passwort")) ∧
    (wrongPwHit (do_login env email password).lastBody = false →
      notFoundHit (do_login env email password).lastBody = true →
      (do_login env email password).message = str ("E-Mail-Adresse nicht gefunden")) ∧
    (wrongPwHit (do_login env email password).lastBody = false →
      notFoundHit (do_login env email password).lastBody = false →
      (do_login env email password).message =
        str ("Login fehlgeschlagen - keine Auth-Cookies erhalten")) := by
  rcases do_login_cases env email password with ⟨msg, jar, body, hcase⟩ | ⟨jar, body, url, hcase⟩
  · rw [hcase] at hend
    simp [mkFailRun] at hend
  · rw [hcase] at hnoauth ⊢
    exact loginFinish_failure env jar body url hnoauth

/-- The first oracle answer of the C8 witness run: a login page with a token. -/
def c8Page1 : NetResp :=
  .ok (str ("<form><input name=\"requestId\"  value=\"abc\"></form>"))
    (str ("https://eu.login.vorwerk.com/?x=1")) []

/-- The second oracle answer of the C8 witness run: a wrong-password page. -/
def c8Page2 : NetResp :=
  .ok (str ("<p>Your password is incorrect.</p>"))
    (str ("https://eu.login.vorwerk.com/err")) []

/-- The C8 witness oracle. -/
def envC8 : Nat → Str → NetResp := fun i _ => if i = 0 then c8Page1 else c8Page2

set_option maxRecDepth 40000 in
theorem c8_failure_message_selection_witness :
    (do_login envC8 (str ("e")) (str ("p"))).success = false ∧
    (wrongPwHit (do_login envC8 (str ("e")) (str ("p"))).lastBody = true →
      (do_login envC8 (str ("e")) (str ("p"))).message = str ("Falsches Passwort")) ∧
    (wrongPwHit (do_login envC8 (str ("e")) (str ("p"))).lastBody = false →
      notFoundHit (do_login envC8 (str ("e")) (str ("p"))).lastBody = true →
      (do_login envC8 (str ("e")) (str ("p"))).message =
        str ("E-Mail-Adresse nicht gefunden")) ∧
    (wrongPwHit (do_login envC8 (str ("e")) (str ("p"))).lastBody = false →
      notFoundHit (do_login envC8 (str ("e")) (str ("p"))).lastBody = false →
      (do_login envC8 (str ("e")) (str ("p"))).message =
        str ("Login fehlgeschlagen - keine Auth-Cookies erhalten")) :=
  c8_failure_message_selection envC8 (str ("e")) (str ("p")) (by decide) (by decide)

/-- The redirect loop does at most `fuel` further hops and ends in one of the
four terminal ways. -/
theorem followRedirects_bounded (env : Nat → Str → NetResp) :
    ∀ (fuel : Nat) (st : FollowState) (hops : Nat),
    (followRedirects env fuel st hops).hops ≤ hops + fuel ∧
    ((followRedirects env fuel st hops).ending = .authMarker ∨
     (followRedirects env fuel st hops).ending = .budget ∨
     (followRedirects env fuel st hops).ending = .noRedirect ∨
     (followRedirects env fuel st hops).ending = .fetchFail)
  | 0, st, hops => by
    rw [followRedirects]
    refine ⟨?_, ?_⟩
    · dsimp only
      omega
    · simp
  | fuel + 1, st, hops => by
    rw [followRedirects]
    cases hc : cookidooRecheck env st with
    | mk st1 auth =>
      dsimp only
      split_ifs with ha
      · refine ⟨?_, ?_⟩
        · dsimp only
          omega
        · simp
      · cases hr : findRedirect st1.body with
        | none =>
          dsimp only
          refine ⟨?_, ?_⟩
          · dsimp only
            omega
          · simp
        | some target =>
          dsimp only
          cases he : env st1.idx (if headMatches (str ("http")) target then target
              else urljoinModel st1.url target) with
          | ok b u c =>
            dsimp only
            have ih := followRedirects_bounded env fuel
              ⟨b, u, st1.jar ++ c, st1.idx + 1⟩ (hops + 1)
            exact ⟨by have h := ih.1; omega, ih.2⟩
          | httpError code loc =>
            dsimp only
            split_ifs with hcode
            · have ih := followRedirects_bounded env fuel
                ⟨st1.body, loc, st1.jar, st1.idx + 1⟩ (hops + 1)
              exact ⟨by have h := ih.1; omega, ih.2⟩
            · refine ⟨?_, ?_⟩
              · dsimp only
                omega
              · simp
          | exn m =>
            dsimp only
            refine ⟨?_, ?_⟩
            · dsimp only
              omega
            · simp

/-- C9 (amended): the redirect-following phase performs at most the fixed
maximum of 10 follow hops and always terminates, ending by the authenticated
marker, by exhausting the hop budget, by finding no further redirect
instruction, or by a fetch failure on a discovered next URL. -/
theorem c9_redirect_loop_bounded (env : Nat → Str → NetResp) (st : FollowState) :
    (followRedirects env 10 st 0).hops ≤ 10 ∧
    ((followRedirects env 10 st 0).ending = .authMarker ∨
     (followRedirects env 10 st 0).ending = .budget ∨
     (followRedirects env 10 st 0).ending = .noRedirect ∨
     (followRedirects env 10 st 0).ending = .fetchFail) :=
  followRedirects_bounded env 10 st 0

/-- The C9 counterexample oracle: every fetch is an HTTP 500. -/
def envFetchFailDemo : Nat → Str → NetResp := fun _ _ => .httpError 500 []

/-- The C9 counterexample state: a body with a script redirect instruction. -/
def stDemo : FollowState :=
  ⟨str ("<script>location.href = \"https://next.example/x\"</script>"),
   str ("https://eu.login.vorwerk.com/s"), [], 2⟩

/-- C9 counterexample: the loop can also end by a non-redirect fetch failure
while following a discovered redirect instruction, which is none of the three
terminal conditions the claim lists. -/
theorem c9_counterexample_fetchfail :
    ¬ ((followRedirects envFetchFailDemo 10 stDemo 0).hops ≤ 10 ∧
      ((followRedirects envFetchFailDemo 10 stDemo 0).ending = EndReason.authMarker ∨
       (followRedirects envFetchFailDemo 10 stDemo 0).ending = EndReason.budget ∨
       (followRedirects envFetchFailDemo 10 stDemo 0).ending = EndReason.noRedirect)) := by
  decide

end Tmx
